import Mathlib

/-!
Verification of the audio/connection core of a voice-conversation client.

The development embeds, in Lean over `ℚ` (JavaScript numbers idealized as
rationals), the parts of the repository that the checked properties speak
about:

* `VAD` — the voice-activity detector of `src/main/audio/vad.ts`
  (RMS + zero-crossing-rate classification, hysteresis counters, and the
  remote-speaking turn-taking lock).
* `Resampler` — the linear-interpolation resampler of
  `src/lib/audioResampler.ts` / `src/main/audio/resampler.ts`, the
  PCM16⇄float conversions, and the stateful `upsample` that carries one
  trailing sample across buffers.
* `Worklet` — the `downsampleBuffer` averaging downsampler embedded in the
  AudioRecorder worklet.
* `GC` — the WebSocket `GeminiClient` (connected/connecting flags,
  send contracts).
* `GLC` — the `GeminiLiveClient` (reconnect backoff, disconnect ordering,
  send contract, VAD gating).
* `Hook` — the `useLiveApi` React hook (reconnect scheduling with jitter,
  close-event gating, user connect/disconnect).
-/

namespace VAD

/-- Configuration of the voice-activity detector (`VADConfig` in vad.ts).
Thresholds and sample rate are rationals; frame counts are naturals. -/
structure VADConfig where
  rmsThreshold : ℚ
  zcrThreshold : ℚ
  minSpeechFrames : ℕ
  minSilenceFrames : ℕ
  sampleRate : ℚ
deriving DecidableEq

/-- Constructor defaults of `VoiceActivityDetector` (vad.ts lines 51-58). -/
def defaultConfig : VADConfig :=
  { rmsThreshold := 1 / 100
    zcrThreshold := 50
    minSpeechFrames := 3
    minSilenceFrames := 10
    sampleRate := 48000 }

/-- Mutable state of `VoiceActivityDetector`. -/
structure VADState where
  config : VADConfig
  speechFrameCount : ℕ
  silenceFrameCount : ℕ
  isSpeaking : Bool
  isGeminiSpeaking : Bool
deriving DecidableEq

/-- Fresh detector state: counters zero, nobody speaking. -/
def initState (cfg : VADConfig) : VADState :=
  { config := cfg
    speechFrameCount := 0
    silenceFrameCount := 0
    isSpeaking := false
    isGeminiSpeaking := false }

/-- Default-configured fresh detector. -/
def vadInit : VADState := initState defaultConfig

/-- Square of `calculateRMS` (vad.ts lines 157-163): mean of squared
samples.  The source computes `sqrt(sum / length)` and compares it with the
threshold; we keep the square to stay inside `ℚ` — comparisons against a
nonnegative threshold are made on squares, which is equivalent since
squaring is monotone on nonnegatives. -/
def calculateRMSsq (samples : List ℚ) : ℚ :=
  (samples.map (fun s => s * s)).sum / (samples.length : ℚ)

/-- The zero-crossing count of `calculateZCR` (vad.ts lines 172-185): for
each `i ≥ 1`, a crossing when `samples[i]` and `samples[i-1]` lie on
opposite sides of zero (zero counted as nonnegative). `samples.zip
samples.tail` enumerates the pairs `(samples[i-1], samples[i])`. -/
def zeroCrossings (samples : List ℚ) : ℕ :=
  (samples.zip samples.tail).countP
    (fun p => decide ((0 ≤ p.2 ∧ p.1 < 0) ∨ (p.2 < 0 ∧ 0 ≤ p.1)))

/-- `calculateZCR` in Hz: crossings divided by the frame duration
`length / sampleRate`. -/
def calculateZCR (cfg : VADConfig) (samples : List ℚ) : ℚ :=
  (zeroCrossings samples : ℚ) / ((samples.length : ℚ) / cfg.sampleRate)

/-- The per-frame activity decision of `process` (vad.ts lines 84-86):
RMS strictly above `rmsThreshold` AND ZCR strictly above `zcrThreshold`.
The RMS comparison is taken on squares (see `calculateRMSsq`). -/
def hasVoiceActivity (cfg : VADConfig) (samples : List ℚ) : Bool :=
  decide (cfg.rmsThreshold ^ 2 < calculateRMSsq samples) &&
  decide (cfg.zcrThreshold < calculateZCR cfg samples)

/-- `reset` (vad.ts lines 144-148): clear both counters and the speaking
flag; the remote-speaking flag is untouched. -/
def reset (s : VADState) : VADState :=
  { s with speechFrameCount := 0, silenceFrameCount := 0, isSpeaking := false }

/-- `process` (vad.ts lines 72-113).  If Gemini is speaking the state is
reset and `false` returned; otherwise the hysteresis counters are updated
from the frame's activity and the (possibly updated) `isSpeaking` flag is
returned. -/
def process (s : VADState) (audioData : List ℚ) : VADState × Bool :=
  if s.isGeminiSpeaking then
    (reset s, false)
  else
    if hasVoiceActivity s.config audioData then
      let s1 := { s with speechFrameCount := s.speechFrameCount + 1, silenceFrameCount := 0 }
      let s2 := if s.config.minSpeechFrames ≤ s1.speechFrameCount then
          { s1 with isSpeaking := true } else s1
      (s2, s2.isSpeaking)
    else
      let s1 := { s with silenceFrameCount := s.silenceFrameCount + 1, speechFrameCount := 0 }
      let s2 := if s.config.minSilenceFrames ≤ s1.silenceFrameCount then
          { s1 with isSpeaking := false } else s1
      (s2, s2.isSpeaking)

/-- `setGeminiSpeaking` (vad.ts lines 121-130): only acts on an actual
transition; on a transition to `true` it also resets the detector. -/
def setGeminiSpeaking (s : VADState) (speaking : Bool) : VADState :=
  if speaking = s.isGeminiSpeaking then s
  else
    let s1 := { s with isGeminiSpeaking := speaking }
    if speaking then reset s1 else s1

/-- Fold `process` over a list of frames, collecting the returned booleans. -/
def processList : VADState → List (List ℚ) → VADState × List Bool
  | s, [] => (s, [])
  | s, f :: fs =>
    let r := process s f
    let rest := processList r.1 fs
    (rest.1, r.2 :: rest.2)

/-- A detector state in which local speech has been declared (counters
cleared, remote silent): the state right after a speech trigger. -/
def speakingState (cfg : VADConfig) : VADState :=
  { config := cfg
    speechFrameCount := 0
    silenceFrameCount := 0
    isSpeaking := true
    isGeminiSpeaking := false }

end VAD

namespace Resampler

/-- Output length of `resample`/`downsample`/`upsample`
(`Math.floor(input.length * ratio)` with `ratio = targetRate/sourceRate`). -/
def resampleOutLen (sourceRate targetRate len : ℕ) : ℕ :=
  (⌊(len : ℚ) * ((targetRate : ℚ) / (sourceRate : ℚ))⌋).toNat

/-- `Math.floor(srcIndex)` for output index `i`, where
`srcIndex = i / ratio`. -/
def srcFloor (sourceRate targetRate : ℕ) (i : ℕ) : ℤ :=
  ⌊(i : ℚ) / ((targetRate : ℚ) / (sourceRate : ℚ))⌋

/-- `Math.min(floor + 1, input.length - 1)`, the upper bracket index. -/
def srcCeil (sourceRate targetRate len : ℕ) (i : ℕ) : ℤ :=
  min (srcFloor sourceRate targetRate i + 1) ((len : ℤ) - 1)

/-- The fractional part `srcIndex - floor` used as interpolation weight. -/
def srcFrac (sourceRate targetRate : ℕ) (i : ℕ) : ℚ :=
  (i : ℚ) / ((targetRate : ℚ) / (sourceRate : ℚ)) - (srcFloor sourceRate targetRate i : ℚ)

/-- `AudioResampler.resample` (audioResampler.ts lines 41-60): identity
when the rates match, otherwise per-output-sample linear interpolation of
the two bracketing input samples. -/
def resample (sourceRate targetRate : ℕ) (input : List ℚ) : List ℚ :=
  if sourceRate = targetRate then input
  else
    (List.range (resampleOutLen sourceRate targetRate input.length)).map
      (fun i =>
        input.getD (srcFloor sourceRate targetRate i).toNat 0 *
            (1 - srcFrac sourceRate targetRate i) +
          input.getD (srcCeil sourceRate targetRate input.length i).toNat 0 *
            srcFrac sourceRate targetRate i)

/-- `AudioResampler.downsample` (main/audio/resampler.ts lines 28-48):
textually the same algorithm as `resample`. -/
def downsample (sourceRate targetRate : ℕ) (input : List ℚ) : List ℚ :=
  if sourceRate = targetRate then input
  else
    (List.range (resampleOutLen sourceRate targetRate input.length)).map
      (fun i =>
        input.getD (srcFloor sourceRate targetRate i).toNat 0 *
            (1 - srcFrac sourceRate targetRate i) +
          input.getD (srcCeil sourceRate targetRate input.length i).toNat 0 *
            srcFrac sourceRate targetRate i)

/-- One interpolated output sample of `upsample`
(main/audio/resampler.ts lines 62-73): when the lower bracket index is `0`
the carried `lastSample` stands in for `input[0]`. -/
def upsampleAt (sourceRate targetRate : ℕ) (lastSample : ℚ) (input : List ℚ) (i : ℕ) : ℚ :=
  let fl := srcFloor sourceRate targetRate i
  let fr := srcFrac sourceRate targetRate i
  let sample1 := if fl = 0 then lastSample else input.getD fl.toNat 0
  let sample2 := input.getD (srcCeil sourceRate targetRate input.length i).toNat 0
  sample1 * (1 - fr) + sample2 * fr

/-- `AudioResampler.upsample` (main/audio/resampler.ts lines 54-81),
returning the output buffer together with the new carried `lastSample`
(updated to the input's final sample only when the input is non-empty;
the equal-rate fast path returns before updating it). -/
def upsample (sourceRate targetRate : ℕ) (lastSample : ℚ) (input : List ℚ) :
    List ℚ × ℚ :=
  if sourceRate = targetRate then (input, lastSample)
  else
    ((List.range (resampleOutLen sourceRate targetRate input.length)).map
        (upsampleAt sourceRate targetRate lastSample input),
      if 0 < input.length then input.getD (input.length - 1) 0 else lastSample)

/-- `Math.max(-1, Math.min(1, x))`. -/
def clampUnit (x : ℚ) : ℚ := max (-1) (min 1 x)

/-- JavaScript's truncation toward zero, as performed when a number is
stored into an `Int16Array` (the subsequent wrap modulo `2^16` is the
identity on `[-32768, 32767]`, which the range facts below establish for
every value this development stores). -/
def jsTrunc (q : ℚ) : ℤ := if q < 0 then -(⌊-q⌋) else ⌊q⌋

/-- The element-wise body of `float32ToInt16`
(audioResampler.ts lines 69-78): clamp to `[-1,1]`, scale negatives by
`0x8000` and nonnegatives by `0x7FFF`, store as a 16-bit integer. -/
def float32ToInt16Sample (x : ℚ) : ℤ :=
  let clamped := clampUnit x
  if clamped < 0 then jsTrunc (clamped * 32768) else jsTrunc (clamped * 32767)

/-- The element-wise body of `int16ToFloat32`
(audioResampler.ts lines 87-95): divide by the constant matching the sign. -/
def int16ToFloat32Sample (v : ℤ) : ℚ :=
  if v < 0 then (v : ℚ) / 32768 else (v : ℚ) / 32767

/-- `AudioResampler.float32ToInt16` applied to a whole buffer. -/
def float32ToInt16 (l : List ℚ) : List ℤ := l.map float32ToInt16Sample

/-- `AudioResampler.int16ToFloat32` applied to a whole buffer. -/
def int16ToFloat32 (l : List ℤ) : List ℚ := l.map int16ToFloat32Sample

end Resampler

namespace Worklet

/-- `Math.round` (round half toward positive infinity). -/
def jround (q : ℚ) : ℤ := ⌊q + 1 / 2⌋

/-- `newLength = Math.round(buffer.length / sampleRateRatio)` with
`sampleRateRatio = inputSampleRate / outputSampleRate`. -/
def downsampleNewLength (len inRate outRate : ℕ) : ℕ :=
  (jround ((len : ℚ) / ((inRate : ℚ) / (outRate : ℚ)))).toNat

/-- Number of input samples falling into averaging window `r` of
`downsampleBuffer`: indices from `round(r * ratio)` (the carried
`offsetBuffer`) up to `min(round((r+1) * ratio), buffer.length)`. -/
def windowCount (len : ℕ) (ratioQ : ℚ) (r : ℕ) : ℕ :=
  (min (jround (((r : ℚ) + 1) * ratioQ)) (len : ℤ) - jround ((r : ℚ) * ratioQ)).toNat

/-- The average computed for window `r`: the sum of the window's samples
divided by `windowCount`. -/
def windowAvg (buffer : List ℚ) (ratioQ : ℚ) (r : ℕ) : ℚ :=
  let lo := jround ((r : ℚ) * ratioQ)
  ((List.range (windowCount buffer.length ratioQ r)).map
      (fun j => buffer.getD (lo.toNat + j) 0)).sum /
    (windowCount buffer.length ratioQ r : ℚ)

/-- The `while` loop of `downsampleBuffer` (AudioRecorder worklet): at
each step the next `offsetBuffer` is `round((offsetResult+1) * ratio)`,
the samples between the carried `offsetBuffer` and
`min(nextOffsetBuffer, buffer.length)` are averaged, and the loop advances.
`remaining` counts the iterations still to perform
(`result.length - offsetResult`). -/
def wgo (buffer : List ℚ) (ratioQ : ℚ) :
    (remaining : ℕ) → (offsetResult : ℕ) → (offsetBuffer : ℤ) → List ℚ
  | 0, _, _ => []
  | remaining + 1, offsetResult, offsetBuffer =>
    let nextOffsetBuffer := jround (((offsetResult : ℚ) + 1) * ratioQ)
    let hi := min nextOffsetBuffer (buffer.length : ℤ)
    let count := (hi - offsetBuffer).toNat
    let accum := ((List.range count).map
        (fun j => buffer.getD (offsetBuffer.toNat + j) 0)).sum
    accum / (count : ℚ) ::
      wgo buffer ratioQ remaining (offsetResult + 1) nextOffsetBuffer

/-- `downsampleBuffer` of the AudioRecorder worklet: identity when the
rates match, otherwise the block-averaging loop. -/
def downsampleBuffer (buffer : List ℚ) (inRate outRate : ℕ) : List ℚ :=
  if inRate = outRate then buffer
  else
    wgo buffer ((inRate : ℚ) / (outRate : ℚ))
      (downsampleNewLength buffer.length inRate outRate) 0 0

end Worklet

namespace GC

/-- Outbound messages of `GeminiClient` (the audio payload is abstracted
to an identifier). -/
inductive GCMessage where
  | clientText (txt : String)
  | realtimeAudio (buf : ℕ)
deriving DecidableEq

/-- State of `GeminiClient` (geminiClient.ts): the `connected` and
`connecting` flags, whether `ws` is non-null, and the log of messages
transmitted on the socket. -/
structure State where
  connected : Bool
  connecting : Bool
  wsOpen : Bool
  sent : List GCMessage
deriving DecidableEq

/-- `GeminiClient.sendText` (lines 147-163): throws when not connected,
otherwise transmits a `client_content` message. -/
def sendText (s : State) (txt : String) : Except String State :=
  if s.connected = false ∨ s.wsOpen = false then
    Except.error ("Not connected to Gemini")
  else
    Except.ok { s with sent := s.sent ++ [GCMessage.clientText txt] }

/-- `GeminiClient.sendAudio` (lines 171-186): silently returns when not
connected, otherwise transmits a `realtime_input` message. -/
def sendAudio (s : State) (buf : ℕ) : State :=
  if s.connected = false ∨ s.wsOpen = false then s
  else { s with sent := s.sent ++ [GCMessage.realtimeAudio buf] }

/-- `GeminiClient.connect` (lines 87-95 head): a no-op while connected or
connecting; otherwise begins one connection attempt.  The boolean reports
whether a new attempt was started. -/
def connect (s : State) : State × Bool :=
  if s.connected || s.connecting then (s, false)
  else ({ s with connecting := true, wsOpen := true }, true)

end GC

namespace GLC

/-- State of `GeminiLiveClient` (geminiLiveClient.ts): connection flag,
whether `session` is non-null, the reconnect bookkeeping
(`reconnectAttempts`, pending `reconnectTimer`, `shouldReconnect`), the
embedded `VoiceActivityDetector`, and a count of audio chunks sent. -/
structure State where
  isConnected : Bool
  sessionOpen : Bool
  reconnectAttempts : ℕ
  timerPending : Bool
  shouldReconnect : Bool
  vad : VAD.VADState
  sentChunks : ℕ
deriving DecidableEq

/-- `GeminiLiveClient.scheduleReconnect` (lines 393-422) with
`RECONNECT_CONFIG = { maxAttempts := 10, initialDelay := 1000,
maxDelay := 30000, backoffMultiplier := 2, jitter := 500 }`.
`u ∈ [0,1)` stands for the `Math.random()` sample, so the jitter
`(u - 1/2) * 500` ranges over `[-250, 250)`.  Returns the state together
with the scheduled delay (`none` when nothing was scheduled). -/
def scheduleReconnect (s : State) (u : ℚ) : State × Option ℚ :=
  if s.shouldReconnect = false then (s, none)
  else if 10 ≤ s.reconnectAttempts then (s, none)
  else
    let attempts := s.reconnectAttempts + 1
    let baseDelay := min (1000 * (2 : ℚ) ^ (attempts - 1)) 30000
    let delay := baseDelay + (u - 1 / 2) * 500
    ({ s with reconnectAttempts := attempts, timerPending := true }, some delay)

/-- The `onclose` callback (lines 175-183): mark disconnected, then
schedule a reconnect only for abnormal closes while `shouldReconnect`. -/
def onClose (s : State) (code : ℕ) (u : ℚ) : State × Option ℚ :=
  let s1 := { s with isConnected := false }
  if s1.shouldReconnect = true ∧ code ≠ 1000 ∧ code ≠ 1001 then
    scheduleReconnect s1 u
  else (s1, none)

/-- `GeminiLiveClient.disconnect` (lines 256-283): clear `shouldReconnect`
first, cancel any pending reconnect timer, close and null the session,
mark disconnected, reset the VAD. -/
def disconnect (s : State) : State :=
  { s with shouldReconnect := false
           timerPending := false
           sessionOpen := false
           isConnected := false
           vad := VAD.reset s.vad }

/-- `GeminiLiveClient.sendAudio` (lines 208-248): throws "Not connected"
when not connected; otherwise runs the frame through the VAD and only
transmits when the user is speaking.  The boolean reports whether a chunk
was transmitted. -/
def sendAudio (s : State) (frame : List ℚ) : Except String (State × Bool) :=
  if s.isConnected = false ∨ s.sessionOpen = false then
    Except.error ("Not connected")
  else
    let r := VAD.process s.vad frame
    if r.2 = false then Except.ok ({ s with vad := r.1 }, false)
    else Except.ok ({ s with vad := r.1, sentChunks := s.sentChunks + 1 }, true)

/-- `GeminiLiveClient.connect` (lines 129-137 head): a no-op while
`isConnected`; otherwise arms `shouldReconnect` and starts one connection
attempt.  The boolean reports whether a new attempt was started. -/
def connect (s : State) : State × Bool :=
  if s.isConnected then (s, false)
  else ({ s with shouldReconnect := true, sessionOpen := true }, true)

end GLC

namespace Hook

/-- State of the `useLiveApi` hook: the `isConnected`/`isConnecting`
React state, the reconnection control refs (`shouldReconnect`,
`reconnectAttempts`, pending `reconnectTimeout`), and `connectionError`. -/
structure State where
  isConnected : Bool
  isConnecting : Bool
  shouldReconnect : Bool
  reconnectAttempts : ℕ
  timerPending : Bool
  connectionError : Option String
deriving DecidableEq

/-- `scheduleReconnect` of `useLiveApi` with
`MAX_RECONNECT_ATTEMPTS = 10`, `BASE_RECONNECT_DELAY_MS = 1000`,
`MAX_RECONNECT_DELAY_MS = 30000`:
`delay = min(1000 * 2^attempts + Math.random() * 500, 30000)` computed
from the counter value *before* it is incremented.  `u ∈ [0,1)` stands for
the `Math.random()` sample.  Returns the state together with the scheduled
delay (`none` when nothing was scheduled). -/
def scheduleReconnect (s : State) (u : ℚ) : State × Option ℚ :=
  if s.shouldReconnect = false then (s, none)
  else if 10 ≤ s.reconnectAttempts then
    ({ s with connectionError := some ("Connection lost. Max reconnection attempts reached.") },
      none)
  else
    let exponentialDelay := 1000 * (2 : ℚ) ^ s.reconnectAttempts
    let jitter := u * 500
    let delay := min (exponentialDelay + jitter) 30000
    ({ s with reconnectAttempts := s.reconnectAttempts + 1, timerPending := true },
      some delay)

/-- `cancelReconnect`: clear the pending timer and zero the counter. -/
def cancelReconnect (s : State) : State :=
  { s with timerPending := false, reconnectAttempts := 0 }

/-- The `onClose` handler: mark disconnected; for an abnormal close code
(not 1000/1001) while `shouldReconnect`, schedule a reconnect. -/
def onClose (s : State) (code : ℕ) (u : ℚ) : State × Option ℚ :=
  let s1 := { s with isConnected := false, isConnecting := false }
  if (code ≠ 1000 ∧ code ≠ 1001) ∧ s1.shouldReconnect = true then
    scheduleReconnect s1 u
  else (s1, none)

/-- The user-facing `disconnect`: disable auto-reconnect first, cancel any
pending reconnect, tear down, clear the error. -/
def disconnect (s : State) : State :=
  let s1 := cancelReconnect { s with shouldReconnect := false }
  { s1 with isConnected := false, isConnecting := false, connectionError := none }

/-- The user-facing `connect` (part_023 lines 330-346): a no-op while
`isConnecting`; otherwise it re-arms `shouldReconnect`, cancels any pending
reconnect, tears down an existing open session, and invokes
`connectInternal` — i.e. starts a fresh connection attempt.  The boolean
reports whether `connectInternal` was invoked. -/
def connect (s : State) : State × Bool :=
  if s.isConnecting then (s, false)
  else
    let s1 := cancelReconnect { s with shouldReconnect := true }
    ({ s1 with isConnecting := true, connectionError := none }, true)

/-- The `onOpen` handler: connected, attempt counter reset. -/
def onOpen (s : State) : State :=
  { s with isConnected := true, isConnecting := false, connectionError := none,
           reconnectAttempts := 0 }

end Hook

/-- The reconnection-delay formula exactly as the specification states it:
`delay = min(maxDelay, baseDelay * 2^attempts) + uniformRandom(0, jitterWindow)`
with `baseDelay = 1000`, `maxDelay = 30000`, `jitterWindow = 500`, and the
attempt counter incremented before the delay is computed (first retry at
`attempts = 1`).  Defined from the spec's words only, to be compared with
the delays the code computes. -/
def specFormulaDelay (attempts : ℕ) (u : ℚ) : ℚ :=
  min 30000 (1000 * (2 : ℚ) ^ attempts) + u * 500

/-- A hook state right after an abnormal close, before any retry:
auto-reconnect armed, zero attempts so far. -/
def hookClosedState : Hook.State :=
  { isConnected := false
    isConnecting := false
    shouldReconnect := true
    reconnectAttempts := 0
    timerPending := false
    connectionError := none }

/-- A hook state with an open session and no connect in progress. -/
def hookOpenState : Hook.State :=
  { isConnected := true
    isConnecting := false
    shouldReconnect := true
    reconnectAttempts := 0
    timerPending := false
    connectionError := none }

/-- A live-client state that is not connected (fresh or after close). -/
def glcClosedState : GLC.State :=
  { isConnected := false
    sessionOpen := false
    reconnectAttempts := 0
    timerPending := false
    shouldReconnect := true
    vad := VAD.vadInit
    sentChunks := 0 }

/-- A WebSocket-client state that is neither connected nor connecting. -/
def gcClosedState : GC.State :=
  { connected := false
    connecting := false
    wsOpen := false
    sent := [] }

/-- A WebSocket-client state with a connection attempt in progress. -/
def gcConnectingState : GC.State :=
  { connected := false
    connecting := true
    wsOpen := false
    sent := [] }

/-! ## Reconnection delay (claim C1) -/

/-- Claim C1, counterexample.  The claim's formula
`min(maxDelay, baseDelay * 2^attempts)` with the counter incremented
before the delay is computed predicts a base of `2000` ms for the first
retry (`attempts = 1`), but the hook's `scheduleReconnect`, invoked on a
fresh post-close state with zero jitter, schedules `1000` ms. -/
theorem c1_delay_formula_counterexample :
    (Hook.scheduleReconnect hookClosedState 0).2 = some 1000 ∧
      specFormulaDelay 1 0 = 2000 ∧ ((1000 : ℚ)) ≠ 2000 := by
  refine ⟨?_, ?_, by norm_num⟩
  · simp [Hook.scheduleReconnect, hookClosedState]
    norm_num
  · simp [specFormulaDelay]
    norm_num

/-- Claim C1, amended.  For the `k`-th retry (`1 ≤ k ≤ 10`, counter value
`k - 1` beforehand) the `useLiveApi` hook schedules
`min(1000 * 2^(k-1) + u*500, 30000)` (jitter `u*500 ∈ [0, 500)` added
before the cap, counter incremented after computing the delay), and
`GeminiLiveClient` schedules `min(1000 * 2^(k-1), 30000) + (u - 1/2)*500`
(jitter in `[-250, 250)`, counter incremented before computing the delay
but used with exponent `attempts - 1`).  In both variants the delay minus
its jitter never exceeds `30000` ms and is monotonically non-decreasing in
the attempt count. -/
theorem c1_delay_formula_amended (hs : Hook.State) (gs : GLC.State) (k : ℕ) (u : ℚ)
    (hu0 : 0 ≤ u) (hu1 : u < 1)
    (hhr : hs.shouldReconnect = true) (hha : hs.reconnectAttempts = k)
    (hgr : gs.shouldReconnect = true) (hga : gs.reconnectAttempts = k)
    (hk : k < 10) :
    (Hook.scheduleReconnect hs u).2 = some (min (1000 * (2 : ℚ) ^ k + u * 500) 30000) ∧
    (Hook.scheduleReconnect hs u).1.reconnectAttempts = k + 1 ∧
    (GLC.scheduleReconnect gs u).2 =
      some (min (1000 * (2 : ℚ) ^ k) 30000 + (u - 1 / 2) * 500) ∧
    (GLC.scheduleReconnect gs u).1.reconnectAttempts = k + 1 ∧
    min (1000 * (2 : ℚ) ^ k + u * 500) 30000 - u * 500 ≤ 30000 ∧
    (min (1000 * (2 : ℚ) ^ k) 30000 + (u - 1 / 2) * 500) - (u - 1 / 2) * 500 ≤ 30000 ∧
    min (1000 * (2 : ℚ) ^ k + u * 500) 30000 - u * 500 ≤
      min (1000 * (2 : ℚ) ^ (k + 1) + u * 500) 30000 - u * 500 ∧
    min (1000 * (2 : ℚ) ^ k) 30000 ≤ min (1000 * (2 : ℚ) ^ (k + 1)) 30000 := by
  have hpow : (1000 : ℚ) * 2 ^ k ≤ 1000 * 2 ^ (k + 1) := by
    have h2 : (2 : ℚ) ^ k ≤ 2 ^ (k + 1) :=
      pow_le_pow_right₀ (by norm_num) (Nat.le_succ k)
    linarith
  have hknle : ¬ (10 ≤ k) := by omega
  refine ⟨?_, ?_, ?_, ?_, ?_, ?_, ?_, ?_⟩
  · simp [Hook.scheduleReconnect, hhr, hha, hknle]
  · simp [Hook.scheduleReconnect, hhr, hha, hknle]
  · simp [GLC.scheduleReconnect, hgr, hga, hknle]
  · simp [GLC.scheduleReconnect, hgr, hga, hknle]
  · have := min_le_right (1000 * (2 : ℚ) ^ k + u * 500) 30000
    have hu500 : (0 : ℚ) ≤ u * 500 := by positivity
    linarith
  · have := min_le_right (1000 * (2 : ℚ) ^ k) 30000
    linarith
  · have := min_le_min (show 1000 * (2 : ℚ) ^ k + u * 500 ≤
        1000 * (2 : ℚ) ^ (k + 1) + u * 500 by linarith)
      (le_refl (30000 : ℚ))
    linarith
  · exact min_le_min hpow (le_refl _)

/-- Claim C1, witness: the amended theorem applied to the first retry
(`k = 0` previous attempts) with zero jitter sample. -/
theorem c1_delay_formula_witness :
    (Hook.scheduleReconnect hookClosedState 0).2 =
      some (min (1000 * (2 : ℚ) ^ 0 + 0 * 500) 30000) ∧
    (GLC.scheduleReconnect glcClosedState 0).2 =
      some (min (1000 * (2 : ℚ) ^ 0) 30000 + (0 - 1 / 2) * 500) :=
  ⟨(c1_delay_formula_amended hookClosedState glcClosedState 0 0 (le_refl 0)
      (by norm_num) rfl rfl rfl rfl (by norm_num)).1,
   (c1_delay_formula_amended hookClosedState glcClosedState 0 0 (le_refl 0)
      (by norm_num) rfl rfl rfl rfl (by norm_num)).2.2.1⟩

/-! ## Reconnect gating after close (claim C2) -/

/-- The hook's `scheduleReconnect` sets a timer exactly when
`shouldReconnect` holds and fewer than 10 attempts were made. -/
theorem hook_schedule_isSome (s : Hook.State) (u : ℚ) :
    (Hook.scheduleReconnect s u).2.isSome =
      (s.shouldReconnect && decide (s.reconnectAttempts < 10)) := by
  unfold Hook.scheduleReconnect
  cases hr : s.shouldReconnect
  · simp [hr]
  · by_cases hb : 10 ≤ s.reconnectAttempts
    · simp [hr, hb, Nat.not_lt.mpr hb]
    · simp [hr, hb, Nat.not_le.mp hb]

/-- `GeminiLiveClient.scheduleReconnect` sets a timer exactly when
`shouldReconnect` holds and fewer than 10 attempts were made. -/
theorem glc_schedule_isSome (s : GLC.State) (u : ℚ) :
    (GLC.scheduleReconnect s u).2.isSome =
      (s.shouldReconnect && decide (s.reconnectAttempts < 10)) := by
  unfold GLC.scheduleReconnect
  cases hr : s.shouldReconnect
  · simp [hr]
  · by_cases hb : 10 ≤ s.reconnectAttempts
    · simp [hr, hb, Nat.not_lt.mpr hb]
    · simp [hr, hb, Nat.not_le.mp hb]

/-- Claim C2: after a close event, a reconnection is scheduled exactly
when `shouldReconnect` holds, the close code is not 1000/1001, and the
attempt count is below the maximum (10) — in both the `useLiveApi` hook
and `GeminiLiveClient`; and after `disconnect()` (which clears
`shouldReconnect` before closing the transport) an asynchronously arriving
abnormal close never schedules a reconnect and leaves no pending timer. -/
theorem c2_reconnect_gating (hs : Hook.State) (gs : GLC.State) (code : ℕ) (u : ℚ) :
    ((Hook.onClose hs code u).2.isSome =
      (hs.shouldReconnect && !(code == 1000) && !(code == 1001) &&
        decide (hs.reconnectAttempts < 10))) ∧
    ((GLC.onClose gs code u).2.isSome =
      (gs.shouldReconnect && !(code == 1000) && !(code == 1001) &&
        decide (gs.reconnectAttempts < 10))) ∧
    (Hook.onClose (Hook.disconnect hs) code u).2 = none ∧
    (Hook.onClose (Hook.disconnect hs) code u).1.timerPending = false ∧
    (GLC.onClose (GLC.disconnect gs) code u).2 = none ∧
    (GLC.onClose (GLC.disconnect gs) code u).1.timerPending = false := by
  refine ⟨?_, ?_, ?_, ?_, ?_, ?_⟩
  · by_cases h0 : code = 1000 <;> by_cases h1 : code = 1001 <;>
      cases hsr : hs.shouldReconnect <;>
      simp_all [Hook.onClose, hook_schedule_isSome]
  · by_cases h0 : code = 1000 <;> by_cases h1 : code = 1001 <;>
      cases gsr : gs.shouldReconnect <;>
      simp_all [GLC.onClose, glc_schedule_isSome]
  · simp [Hook.onClose, Hook.disconnect, Hook.cancelReconnect]
  · simp [Hook.onClose, Hook.disconnect, Hook.cancelReconnect]
  · simp [GLC.onClose, GLC.disconnect]
  · simp [GLC.onClose, GLC.disconnect]

/-! ## Send contracts when not Open (claim C5) -/

/-- Claim C5, counterexample.  The claim says `sendAudio` silently drops
the frame with no error raised when the session is not Open, but
`GeminiLiveClient.sendAudio` rejects with a "Not connected" error on a
disconnected state. -/
theorem c5_send_counterexample :
    GLC.sendAudio glcClosedState [] = Except.error ("Not connected") := by
  rfl

/-- Claim C5, amended.  When the session is not Open:
`GeminiClient.sendAudio` is a silent no-op (state unchanged, nothing
transmitted, no error), `GeminiClient.sendText` rejects with
"Not connected to Gemini", and `GeminiLiveClient.sendAudio` rejects with a
"Not connected" error rather than silently dropping (leaving its state
untouched, since the error is raised before any processing). -/
theorem c5_send_amended (gc : GC.State) (gs : GLC.State) (txt : String)
    (frame : List ℚ) (buf : ℕ)
    (hgc : gc.connected = false ∨ gc.wsOpen = false)
    (hgs : gs.isConnected = false ∨ gs.sessionOpen = false) :
    GC.sendAudio gc buf = gc ∧
    GC.sendText gc txt = Except.error ("Not connected to Gemini") ∧
    GLC.sendAudio gs frame = Except.error ("Not connected") := by
  refine ⟨?_, ?_, ?_⟩
  · unfold GC.sendAudio
    rw [if_pos hgc]
  · unfold GC.sendText
    rw [if_pos hgc]
  · unfold GLC.sendAudio
    rw [if_pos hgs]

/-- Claim C5, witness: the amended theorem at concrete disconnected
states. -/
theorem c5_send_witness :
    GC.sendAudio gcClosedState 7 = gcClosedState ∧
    GC.sendText gcClosedState "hello" = Except.error ("Not connected to Gemini") ∧
    GLC.sendAudio glcClosedState [1] = Except.error ("Not connected") :=
  c5_send_amended gcClosedState glcClosedState "hello" [1] 7 (Or.inl rfl) (Or.inl rfl)

/-! ## Single connect attempt (claim C9) -/

/-- Claim C9, counterexample.  The claim says `connect()` while Open is a
no-op, but the `useLiveApi` hook's `connect` on an open session is not a
no-op: it invokes `connectInternal` (a fresh connection attempt, after
tearing down the current session) and changes the state. -/
theorem c9_connect_counterexample :
    (Hook.connect hookOpenState).2 = true ∧
    (Hook.connect hookOpenState).1 ≠ hookOpenState := by
  refine ⟨rfl, ?_⟩
  decide

/-- Claim C9, amended.  `connect()` while Connecting is a no-op in the
`useLiveApi` hook and in `GeminiClient` (which also treats Open as a
no-op), and `GeminiLiveClient.connect` is a no-op while connected; but the
hook's `connect()` while Open is not a no-op: it tears down the current
session and starts exactly one fresh connection attempt.  In every case no
retry is queued (the started branch cancels any pending reconnect timer
and zeroes the attempt counter). -/
theorem c9_connect_amended (hs : Hook.State) (gs : GLC.State) (gc : GC.State) :
    (hs.isConnecting = true → Hook.connect hs = (hs, false)) ∧
    ((gc.connected || gc.connecting) = true → GC.connect gc = (gc, false)) ∧
    (gs.isConnected = true → GLC.connect gs = (gs, false)) ∧
    (hs.isConnecting = false →
      (Hook.connect hs).2 = true ∧ (Hook.connect hs).1.isConnecting = true ∧
      (Hook.connect hs).1.timerPending = false ∧
      (Hook.connect hs).1.reconnectAttempts = 0) := by
  refine ⟨?_, ?_, ?_, ?_⟩
  · intro h
    simp [Hook.connect, h]
  · intro h
    simp [GC.connect, h]
  · intro h
    simp [GLC.connect, h]
  · intro h
    simp [Hook.connect, h, Hook.cancelReconnect]

/-- Claim C9, witness: the amended theorem at concrete states — a
connecting `GeminiClient` ignores `connect()`, and the hook with no
connect in progress starts exactly one attempt. -/
theorem c9_connect_witness :
    GC.connect gcConnectingState = (gcConnectingState, false) ∧
    (Hook.connect hookClosedState).2 = true :=
  ⟨(c9_connect_amended hookClosedState glcClosedState gcConnectingState).2.1 rfl,
   ((c9_connect_amended hookClosedState glcClosedState gcConnectingState).2.2.2 rfl).1⟩

/-! ## Turn-taking override (claim C3) -/

/-- A state whose counters and speaking flag are already cleared is a
fixed point of `reset`. -/
theorem vad_reset_fixed {s : VAD.VADState} (h1 : s.speechFrameCount = 0)
    (h2 : s.silenceFrameCount = 0) (h3 : s.isSpeaking = false) :
    VAD.reset s = s := by
  cases s
  simp_all [VAD.reset]

/-- While Gemini is speaking, `process` resets the state and returns
`false`, whatever the frame contains. -/
theorem vad_process_remote {s : VAD.VADState} (hg : s.isGeminiSpeaking = true)
    (f : List ℚ) : VAD.process s f = (VAD.reset s, false) := by
  simp [VAD.process, hg]

/-- While Gemini is speaking and the state is already reset, any frame
sequence leaves the state unchanged and yields only `false`. -/
theorem vad_processList_remote (s : VAD.VADState) (frames : List (List ℚ))
    (hg : s.isGeminiSpeaking = true) (h1 : s.speechFrameCount = 0)
    (h2 : s.silenceFrameCount = 0) (h3 : s.isSpeaking = false) :
    VAD.processList s frames = (s, List.replicate frames.length false) := by
  induction frames with
  | nil => simp [VAD.processList]
  | cons f fs ih =>
    simp [VAD.processList, vad_process_remote hg,
      vad_reset_fixed h1 h2 h3, ih, List.replicate_succ]

/-- Claim C3: once `setGeminiSpeaking true` is called (from a state where
the remote peer was not yet marked speaking), both hysteresis counters are
reset and the local-speaking flag is cleared; and `process` returns
`false` for every subsequent frame — leaving the state unchanged —
regardless of the frames' energy or zero-crossing rate, until
`setGeminiSpeaking false` would intervene.  In particular `isSpeaking` is
false whenever `isGeminiSpeaking` is true. -/
theorem c3_remote_speaking_gate (s : VAD.VADState) (frames : List (List ℚ))
    (hg : s.isGeminiSpeaking = false) :
    (VAD.setGeminiSpeaking s true).isSpeaking = false ∧
    (VAD.setGeminiSpeaking s true).speechFrameCount = 0 ∧
    (VAD.setGeminiSpeaking s true).silenceFrameCount = 0 ∧
    (VAD.setGeminiSpeaking s true).isGeminiSpeaking = true ∧
    VAD.processList (VAD.setGeminiSpeaking s true) frames =
      (VAD.setGeminiSpeaking s true, List.replicate frames.length false) := by
  have hne : ¬ (true = s.isGeminiSpeaking) := by simp [hg]
  have hset : VAD.setGeminiSpeaking s true =
      VAD.reset { s with isGeminiSpeaking := true } := by
    simp [VAD.setGeminiSpeaking, hne]
  refine ⟨?_, ?_, ?_, ?_, ?_⟩
  · rw [hset]; rfl
  · rw [hset]; rfl
  · rw [hset]; rfl
  · rw [hset]; rfl
  · exact vad_processList_remote _ frames (by rw [hset]; rfl)
      (by rw [hset]; rfl) (by rw [hset]; rfl) (by rw [hset]; rfl)

/-- Claim C3, witness: the theorem at a fresh default detector and two
concrete loud frames. -/
theorem c3_remote_speaking_gate_witness :
    VAD.processList (VAD.setGeminiSpeaking VAD.vadInit true)
        [[1, -1, 1, -1], [1, -1, 1, -1]] =
      (VAD.setGeminiSpeaking VAD.vadInit true, List.replicate 2 false) :=
  (c3_remote_speaking_gate VAD.vadInit [[1, -1, 1, -1], [1, -1, 1, -1]] rfl).2.2.2.2

/-! ## VAD hysteresis (claim C4) -/

/-- An active frame below the speech trigger: the speech counter
increments, the silence counter clears, the flag is unchanged. -/
theorem vad_process_active_lt (cfg : VAD.VADConfig) (f : List ℚ)
    (c sil : ℕ) (b : Bool)
    (ha : VAD.hasVoiceActivity cfg f = true)
    (hlt : c + 1 < cfg.minSpeechFrames) :
    VAD.process ⟨cfg, c, sil, b, false⟩ f = (⟨cfg, c + 1, 0, b, false⟩, b) := by
  simp [VAD.process, ha, Nat.not_le.mpr hlt]

/-- An active frame reaching the speech trigger sets `isSpeaking`. -/
theorem vad_process_active_ge (cfg : VAD.VADConfig) (f : List ℚ)
    (c sil : ℕ) (b : Bool)
    (ha : VAD.hasVoiceActivity cfg f = true)
    (hge : cfg.minSpeechFrames ≤ c + 1) :
    VAD.process ⟨cfg, c, sil, b, false⟩ f = (⟨cfg, c + 1, 0, true, false⟩, true) := by
  simp [VAD.process, ha, hge]

/-- An inactive frame below the silence trigger: the silence counter
increments, the speech counter clears, the flag is unchanged. -/
theorem vad_process_inactive_lt (cfg : VAD.VADConfig) (f : List ℚ)
    (sp c : ℕ) (b : Bool)
    (hi : VAD.hasVoiceActivity cfg f = false)
    (hlt : c + 1 < cfg.minSilenceFrames) :
    VAD.process ⟨cfg, sp, c, b, false⟩ f = (⟨cfg, 0, c + 1, b, false⟩, b) := by
  simp [VAD.process, hi, Nat.not_le.mpr hlt]

/-- An inactive frame reaching the silence trigger clears `isSpeaking`. -/
theorem vad_process_inactive_ge (cfg : VAD.VADConfig) (f : List ℚ)
    (sp c : ℕ) (b : Bool)
    (hi : VAD.hasVoiceActivity cfg f = false)
    (hge : cfg.minSilenceFrames ≤ c + 1) :
    VAD.process ⟨cfg, sp, c, b, false⟩ f = (⟨cfg, 0, c + 1, false, false⟩, false) := by
  simp [VAD.process, hi, hge]

/-- An inactive frame can never turn a non-speaking state into a speaking
one, and always reports `false`. -/
theorem vad_process_inactive_out (cfg : VAD.VADConfig) (f : List ℚ) (sp c : ℕ)
    (hi : VAD.hasVoiceActivity cfg f = false) :
    (VAD.process ⟨cfg, sp, c, false, false⟩ f).2 = false ∧
    (VAD.process ⟨cfg, sp, c, false, false⟩ f).1.isSpeaking = false := by
  by_cases hb : cfg.minSilenceFrames ≤ c + 1
  · rw [vad_process_inactive_ge cfg f sp c false hi hb]
    exact ⟨rfl, rfl⟩
  · rw [vad_process_inactive_lt cfg f sp c false hi (by omega)]
    exact ⟨rfl, rfl⟩

/-- `processList` distributes over list append. -/
theorem vad_processList_append (s : VAD.VADState) (l1 l2 : List (List ℚ)) :
    VAD.processList s (l1 ++ l2) =
      ((VAD.processList (VAD.processList s l1).1 l2).1,
        (VAD.processList s l1).2 ++ (VAD.processList (VAD.processList s l1).1 l2).2) := by
  induction l1 generalizing s with
  | nil => simp [VAD.processList]
  | cons f fs ih => simp [VAD.processList, ih]

/-- Running `k` consecutive active frames from a non-speaking state whose
counter stays below the trigger accumulates the counter and keeps
reporting `false`. -/
theorem vad_run_active (cfg : VAD.VADConfig) (fa : List ℚ)
    (ha : VAD.hasVoiceActivity cfg fa = true) :
    ∀ (k c : ℕ), c + k < cfg.minSpeechFrames →
      VAD.processList ⟨cfg, c, 0, false, false⟩ (List.replicate k fa) =
        (⟨cfg, c + k, 0, false, false⟩, List.replicate k false) := by
  intro k
  induction k with
  | zero => intro c _; simp [VAD.processList]
  | succ k ih =>
    intro c hc
    have hstep := vad_process_active_lt cfg fa c 0 false ha (by omega)
    have hrec := ih (c + 1) (by omega)
    have hadd : c + 1 + k = c + (k + 1) := by omega
    simp [List.replicate_succ, VAD.processList, hstep, hrec, hadd]

/-- Running `k` consecutive inactive frames from a speaking state whose
counter stays below the silence trigger keeps reporting `true`. -/
theorem vad_run_inactive (cfg : VAD.VADConfig) (fi : List ℚ)
    (hi : VAD.hasVoiceActivity cfg fi = false) :
    ∀ (k c : ℕ), c + k < cfg.minSilenceFrames →
      VAD.processList ⟨cfg, 0, c, true, false⟩ (List.replicate k fi) =
        (⟨cfg, 0, c + k, true, false⟩, List.replicate k true) := by
  intro k
  induction k with
  | zero => intro c _; simp [VAD.processList]
  | succ k ih =>
    intro c hc
    have hstep := vad_process_inactive_lt cfg fi 0 c true hi (by omega)
    have hrec := ih (c + 1) (by omega)
    have hadd : c + 1 + k = c + (k + 1) := by omega
    simp [List.replicate_succ, VAD.processList, hstep, hrec, hadd]

/-- Claim C4: from the initial gate state, `minSpeechFrames - 1`
consecutive active frames followed by an inactive one never set
`isSpeaking` (every per-frame output is `false`), while `minSpeechFrames`
consecutive active frames do set it; symmetrically, from a speaking state
`minSilenceFrames - 1` consecutive inactive frames keep `isSpeaking` true
(every output is `true`) and `minSilenceFrames` consecutive inactive
frames declare silence. -/
theorem c4_vad_hysteresis (cfg : VAD.VADConfig) (fa fi : List ℚ)
    (hm : 1 ≤ cfg.minSpeechFrames) (hn : 1 ≤ cfg.minSilenceFrames)
    (ha : VAD.hasVoiceActivity cfg fa = true)
    (hi : VAD.hasVoiceActivity cfg fi = false) :
    (VAD.processList (VAD.initState cfg)
        (List.replicate (cfg.minSpeechFrames - 1) fa ++ [fi])).2 =
      List.replicate cfg.minSpeechFrames false ∧
    (VAD.processList (VAD.initState cfg)
        (List.replicate cfg.minSpeechFrames fa)).1.isSpeaking = true ∧
    (VAD.processList (VAD.speakingState cfg)
        (List.replicate (cfg.minSilenceFrames - 1) fi)).2 =
      List.replicate (cfg.minSilenceFrames - 1) true ∧
    (VAD.processList (VAD.speakingState cfg)
        (List.replicate cfg.minSilenceFrames fi)).1.isSpeaking = false := by
  have hinit : VAD.initState cfg = ⟨cfg, 0, 0, false, false⟩ := rfl
  have hspk : VAD.speakingState cfg = ⟨cfg, 0, 0, true, false⟩ := rfl
  have hrun1 := vad_run_active cfg fa ha (cfg.minSpeechFrames - 1) 0 (by omega)
  have hrun2 := vad_run_inactive cfg fi hi (cfg.minSilenceFrames - 1) 0 (by omega)
  simp only [Nat.zero_add] at hrun1 hrun2
  have hm1 : cfg.minSpeechFrames - 1 + 1 = cfg.minSpeechFrames := by omega
  have hn1 : cfg.minSilenceFrames - 1 + 1 = cfg.minSilenceFrames := by omega
  refine ⟨?_, ?_, ?_, ?_⟩
  · rw [hinit, vad_processList_append, hrun1]
    have hlast := vad_process_inactive_out cfg fi (cfg.minSpeechFrames - 1) 0 hi
    rw [← hm1, List.replicate_succ']
    simp [VAD.processList, hlast.1]
  · have hsplit : List.replicate cfg.minSpeechFrames fa =
        List.replicate (cfg.minSpeechFrames - 1) fa ++ [fa] := by
      rw [← List.replicate_succ', hm1]
    rw [hinit, hsplit, vad_processList_append, hrun1]
    have hlast := vad_process_active_ge cfg fa (cfg.minSpeechFrames - 1) 0 false ha
      (by omega)
    simp [VAD.processList, hlast]
  · rw [hspk, hrun2]
  · have hsplit : List.replicate cfg.minSilenceFrames fi =
        List.replicate (cfg.minSilenceFrames - 1) fi ++ [fi] := by
      rw [← List.replicate_succ', hn1]
    rw [hspk, hsplit, vad_processList_append, hrun2]
    have hlast := vad_process_inactive_ge cfg fi 0 (cfg.minSilenceFrames - 1) true hi
      (by omega)
    simp [VAD.processList, hlast]

/-- Claim C4, witness: the default configuration
(`minSpeechFrames = 3`, `minSilenceFrames = 10`) with a loud alternating
frame and a silent frame. -/
theorem c4_vad_hysteresis_witness :
    (VAD.processList (VAD.initState VAD.defaultConfig)
        (List.replicate 3 [1, -1, 1, -1])).1.isSpeaking = true ∧
    (VAD.processList (VAD.speakingState VAD.defaultConfig)
        (List.replicate 10 [0, 0])).1.isSpeaking = false := by
  have h := c4_vad_hysteresis VAD.defaultConfig [1, -1, 1, -1] [0, 0]
    (by norm_num [VAD.defaultConfig]) (by norm_num [VAD.defaultConfig])
    (by norm_num [VAD.hasVoiceActivity, VAD.calculateRMSsq, VAD.calculateZCR,
      VAD.zeroCrossings, VAD.defaultConfig, List.countP, List.countP.go])
    (by norm_num [VAD.hasVoiceActivity, VAD.calculateRMSsq, VAD.calculateZCR,
      VAD.zeroCrossings, VAD.defaultConfig, List.countP, List.countP.go])
  exact ⟨h.2.1, h.2.2.2⟩

/-! ## PCM16 round-trip (claim C6) -/

/-- Claim C6: for every sample `s ∈ [-1, 1]`,
`int16ToFloat32 (float32ToInt16 s)` is within one quantization step
(`1/32767`, the coarser of the two steps) of `s`, and the stored 16-bit
value always lies in `[-32768, 32767]` — so the `Int16Array` store never
wraps. -/
theorem c6_pcm_roundtrip (x : ℚ) (h1 : -1 ≤ x) (h2 : x ≤ 1) :
    |Resampler.int16ToFloat32Sample (Resampler.float32ToInt16Sample x) - x| ≤ 1 / 32767 ∧
    -32768 ≤ Resampler.float32ToInt16Sample x ∧
    Resampler.float32ToInt16Sample x ≤ 32767 := by
  have hc : Resampler.clampUnit x = x := by
    unfold Resampler.clampUnit
    rw [min_eq_right h2, max_eq_right h1]
  unfold Resampler.float32ToInt16Sample
  rw [hc]
  by_cases hx : x < 0
  · rw [if_pos hx]
    unfold Resampler.jsTrunc
    have hy : x * 32768 < 0 := mul_neg_of_neg_of_pos hx (by norm_num)
    rw [if_pos hy]
    have hfl : (⌊-(x * 32768)⌋ : ℚ) ≤ -(x * 32768) := Int.floor_le _
    have hfl2 : -(x * 32768) - 1 < (⌊-(x * 32768)⌋ : ℚ) := Int.sub_one_lt_floor _
    have hnn : 0 ≤ ⌊-(x * 32768)⌋ := Int.floor_nonneg.mpr (by linarith)
    have hub : ⌊-(x * 32768)⌋ ≤ 32768 := by
      have hq : (⌊-(x * 32768)⌋ : ℚ) ≤ 32768 := le_trans hfl (by nlinarith)
      exact_mod_cast hq
    refine ⟨?_, by omega, by omega⟩
    unfold Resampler.int16ToFloat32Sample
    by_cases hi0 : -⌊-(x * 32768)⌋ < (0 : ℤ)
    · rw [if_pos hi0]
      have heq : ((-⌊-(x * 32768)⌋ : ℤ) : ℚ) / 32768 - x =
          ((-⌊-(x * 32768)⌋ : ℤ) - x * 32768) / 32768 := by
        push_cast
        ring
      rw [heq]
      rw [abs_div]
      have habs : |((-⌊-(x * 32768)⌋ : ℤ) : ℚ) - x * 32768| ≤ 1 := by
        rw [abs_le]
        constructor <;> push_cast <;> linarith
      have h32 : |(32768 : ℚ)| = 32768 := by norm_num
      rw [h32]
      calc |((-⌊-(x * 32768)⌋ : ℤ) : ℚ) - x * 32768| / 32768 ≤ 1 / 32768 :=
            (div_le_div_right (by norm_num : (0 : ℚ) < 32768)).mpr habs
          _ ≤ 1 / 32767 := by norm_num
    · rw [if_neg hi0]
      have hz : ⌊-(x * 32768)⌋ = 0 := by omega
      rw [hz]
      have : -(x * 32768) < 1 := by
        rw [hz] at hfl2
        push_cast at hfl2
        linarith
      rw [abs_le]
      constructor
      · simp
        nlinarith
      · simp
        nlinarith
  · rw [if_neg hx]
    push_neg at hx
    unfold Resampler.jsTrunc
    have hy : ¬ (x * 32767 < 0) := not_lt.mpr (mul_nonneg hx (by norm_num))
    rw [if_neg hy]
    have hfl : (⌊x * 32767⌋ : ℚ) ≤ x * 32767 := Int.floor_le _
    have hfl2 : x * 32767 - 1 < (⌊x * 32767⌋ : ℚ) := Int.sub_one_lt_floor _
    have hnn : 0 ≤ ⌊x * 32767⌋ := Int.floor_nonneg.mpr (by positivity)
    have hub : ⌊x * 32767⌋ ≤ 32767 := by
      have hq : (⌊x * 32767⌋ : ℚ) ≤ 32767 := le_trans hfl (by nlinarith)
      exact_mod_cast hq
    refine ⟨?_, by omega, by omega⟩
    unfold Resampler.int16ToFloat32Sample
    rw [if_neg (not_lt.mpr hnn)]
    have heq : ((⌊x * 32767⌋ : ℤ) : ℚ) / 32767 - x =
        ((⌊x * 32767⌋ : ℚ) - x * 32767) / 32767 := by
      ring
    rw [heq, abs_div]
    have habs : |(⌊x * 32767⌋ : ℚ) - x * 32767| ≤ 1 := by
      rw [abs_le]
      constructor <;> linarith
    have h32 : |(32767 : ℚ)| = 32767 := by norm_num
    rw [h32]
    exact (div_le_div_right (by norm_num : (0 : ℚ) < 32767)).mpr habs

/-- Claim C6, witness: the round-trip bound at `s = 1/3`. -/
theorem c6_pcm_roundtrip_witness :
    |Resampler.int16ToFloat32Sample (Resampler.float32ToInt16Sample (1 / 3)) - 1 / 3| ≤
        1 / 32767 ∧
    -32768 ≤ Resampler.float32ToInt16Sample (1 / 3) ∧
    Resampler.float32ToInt16Sample (1 / 3) ≤ 32767 :=
  c6_pcm_roundtrip (1 / 3) (by norm_num) (by norm_num)

/-! ## Resample length, identity, bracket clamping (claim C7) -/

/-- Claim C7: for all positive rates, the resampler's output length is
`floor(inputLength * targetRate / sourceRate)`; equal rates return the
input unchanged; every lower and (clamped) upper bracket index read by the
interpolation loop stays inside the buffer; and the `downsample` variant
computes exactly the same output as `resample`. -/
theorem c7_resample_length (sourceRate targetRate : ℕ) (input : List ℚ)
    (hs : 0 < sourceRate) (ht : 0 < targetRate) :
    (Resampler.resample sourceRate targetRate input).length =
      (⌊(input.length : ℚ) * (targetRate : ℚ) / (sourceRate : ℚ)⌋).toNat ∧
    (sourceRate = targetRate → Resampler.resample sourceRate targetRate input = input) ∧
    (∀ i, i < Resampler.resampleOutLen sourceRate targetRate input.length →
      (Resampler.srcFloor sourceRate targetRate i).toNat < input.length ∧
      (Resampler.srcCeil sourceRate targetRate input.length i).toNat < input.length) ∧
    Resampler.downsample sourceRate targetRate input =
      Resampler.resample sourceRate targetRate input := by
  have hsQ : (0 : ℚ) < (sourceRate : ℚ) := by exact_mod_cast hs
  have htQ : (0 : ℚ) < (targetRate : ℚ) := by exact_mod_cast ht
  refine ⟨?_, ?_, ?_, rfl⟩
  · unfold Resampler.resample
    by_cases heq : sourceRate = targetRate
    · rw [if_pos heq]
      subst heq
      rw [mul_div_cancel_right₀ _ (ne_of_gt htQ)]
      simp
    · rw [if_neg heq]
      rw [List.length_map, List.length_range]
      unfold Resampler.resampleOutLen
      rw [mul_div_assoc]
  · intro heq
    unfold Resampler.resample
    rw [if_pos heq]
  · intro i hi
    unfold Resampler.resampleOutLen at hi
    have hN : 0 < ⌊(input.length : ℚ) * ((targetRate : ℚ) / (sourceRate : ℚ))⌋ := by
      by_contra hcon
      push_neg at hcon
      rw [Int.toNat_of_nonpos hcon] at hi
      omega
    have hiZ : (i : ℤ) < ⌊(input.length : ℚ) * ((targetRate : ℚ) / (sourceRate : ℚ))⌋ := by
      have h' : ((i : ℕ) : ℤ) <
          ((⌊(input.length : ℚ) * ((targetRate : ℚ) / (sourceRate : ℚ))⌋).toNat : ℤ) := by
        exact_mod_cast hi
      rwa [Int.toNat_of_nonneg (le_of_lt hN)] at h'
    have hi1 : (i : ℚ) + 1 ≤ (input.length : ℚ) * ((targetRate : ℚ) / (sourceRate : ℚ)) := by
      have h2 : (i : ℤ) + 1 ≤
          ⌊(input.length : ℚ) * ((targetRate : ℚ) / (sourceRate : ℚ))⌋ := by
        omega
      have h3 := Int.le_floor.mp h2
      push_cast at h3
      linarith
    have hlen : 0 < input.length := by
      by_contra hcon
      push_neg at hcon
      have h0 : input.length = 0 := by omega
      rw [h0] at hN
      simp at hN
    have hdiv : (i : ℚ) / ((targetRate : ℚ) / (sourceRate : ℚ)) < (input.length : ℚ) := by
      rw [div_div_eq_mul_div]
      rw [div_lt_iff htQ]
      have hmul : ((i : ℚ) + 1) * (sourceRate : ℚ) ≤ (input.length : ℚ) * (targetRate : ℚ) := by
        have h2 : (i : ℚ) + 1 ≤ (input.length : ℚ) * (targetRate : ℚ) / (sourceRate : ℚ) := by
          rwa [mul_div_assoc]
        rwa [le_div_iff hsQ] at h2
      nlinarith
    have hfnn : 0 ≤ Resampler.srcFloor sourceRate targetRate i := by
      unfold Resampler.srcFloor
      apply Int.floor_nonneg.mpr
      positivity
    have hflt : Resampler.srcFloor sourceRate targetRate i < (input.length : ℤ) := by
      unfold Resampler.srcFloor
      apply Int.floor_lt.mpr
      push_cast
      exact hdiv
    constructor
    · omega
    · unfold Resampler.srcCeil
      rcases min_cases (Resampler.srcFloor sourceRate targetRate i + 1)
          ((input.length : ℤ) - 1) with ⟨hmin, hle⟩ | ⟨hmin, hle⟩ <;> rw [hmin] <;> omega

/-- Claim C7, witness: downsampling a three-sample buffer from 48 kHz to
16 kHz yields `floor(3 * 16000 / 48000) = 1` sample, with in-range
bracket indices. -/
theorem c7_resample_length_witness :
    (Resampler.resample 48000 16000 [1, 2, 3]).length =
      (⌊(([1, 2, 3] : List ℚ).length : ℚ) * (16000 : ℚ) / (48000 : ℚ)⌋).toNat ∧
    (Resampler.srcFloor 48000 16000 0).toNat < ([1, 2, 3] : List ℚ).length := by
  have h := c7_resample_length 48000 16000 [1, 2, 3] (by norm_num) (by norm_num)
  refine ⟨h.1, (h.2.2.1 0 ?_).1⟩
  norm_num [Resampler.resampleOutLen]

/-! ## Upsample carry at buffer boundaries (claim C8) -/

/-- Claim C8, counterexample.  The claim says exactly the very first
output sample of a new buffer is interpolated against the carried trailing
sample.  But with rates 24000→48000 and input `[0, 0]`, output index 1
(the second output sample) evaluates to half the carried sample: carrying
`1` gives `1/2` there, carrying `0` gives `0` — so a non-first output
sample also blends against the carry. -/
theorem c8_upsample_carry_counterexample :
    (Resampler.upsample 24000 48000 1 [0, 0]).1.getD 1 0 = 1 / 2 ∧
    (Resampler.upsample 24000 48000 0 [0, 0]).1.getD 1 0 = 0 ∧
    ((1 : ℚ) / 2) ≠ 0 := by
  refine ⟨?_, ?_, by norm_num⟩ <;>
    norm_num [Resampler.upsample, Resampler.upsampleAt, Resampler.resampleOutLen,
      Resampler.srcFloor, Resampler.srcFrac, Resampler.srcCeil, List.range_succ]

/-- Claim C8, amended.  In the stateful upsampling direction, exactly the
output samples whose source floor index is `0` — all output indices `i`
with `i * sourceRate < targetRate`, the first of which is `i = 0` — are
interpolated against the carried trailing sample (outputs with a nonzero
floor index are independent of the carry, outputs with floor index `0`
genuinely depend on it); and after every call on a non-empty buffer the
carried trailing sample equals the last input sample. -/
theorem c8_upsample_carry_amended (sourceRate targetRate : ℕ) (last last' : ℚ)
    (input : List ℚ) (hs : 0 < sourceRate) (hst : sourceRate < targetRate) :
    (∀ i, Resampler.srcFloor sourceRate targetRate i ≠ 0 →
      Resampler.upsampleAt sourceRate targetRate last input i =
        Resampler.upsampleAt sourceRate targetRate last' input i) ∧
    (∀ i, Resampler.srcFloor sourceRate targetRate i = 0 → last ≠ last' →
      Resampler.upsampleAt sourceRate targetRate last input i ≠
        Resampler.upsampleAt sourceRate targetRate last' input i) ∧
    Resampler.srcFloor sourceRate targetRate 0 = 0 ∧
    (0 < input.length →
      (Resampler.upsample sourceRate targetRate last input).2 =
        input.getD (input.length - 1) 0) := by
  refine ⟨?_, ?_, ?_, ?_⟩
  · intro i h0
    simp [Resampler.upsampleAt, h0]
  · intro i h0 hne heq
    apply hne
    simp only [Resampler.upsampleAt, h0, if_pos] at heq
    have hfr : Resampler.srcFrac sourceRate targetRate i < 1 := by
      unfold Resampler.srcFrac
      have := Int.sub_one_lt_floor
        ((i : ℚ) / ((targetRate : ℚ) / (sourceRate : ℚ)))
      unfold Resampler.srcFloor
      linarith
    have hz : (last - last') * (1 - Resampler.srcFrac sourceRate targetRate i) = 0 := by
      linear_combination heq
    rcases mul_eq_zero.mp hz with hz1 | hz2
    · exact sub_eq_zero.mp hz1
    · exact absurd (by linarith : Resampler.srcFrac sourceRate targetRate i = 1)
        (by exact ne_of_lt hfr)
  · unfold Resampler.srcFloor
    simp
  · intro hlen
    unfold Resampler.upsample
    rw [if_neg (Nat.ne_of_lt hst)]
    simp [hlen]

/-- Claim C8, witness: the amended theorem at rates 24000→48000 with two
distinct carried samples — output index 1 depends on the carry, and the
carry updates to the input's last sample. -/
theorem c8_upsample_carry_witness :
    Resampler.upsampleAt 24000 48000 5 [0, 0] 1 ≠
      Resampler.upsampleAt 24000 48000 7 [0, 0] 1 ∧
    (Resampler.upsample 24000 48000 5 [0, 0]).2 = ([0, 0] : List ℚ).getD 1 0 := by
  have h := c8_upsample_carry_amended 24000 48000 5 7 [0, 0] (by norm_num) (by norm_num)
  refine ⟨h.2.1 1 ?_ (by norm_num), h.2.2.2 (by norm_num)⟩
  norm_num [Resampler.srcFloor]

/-! ## Worklet downsampler window non-emptiness (claim C10) -/

/-- The carried `offsetBuffer` of the `downsampleBuffer` loop at iteration
`r` is `round(r * ratio)`, so the loop equals the per-window closed form. -/
theorem worklet_wgo_closed (buffer : List ℚ) (ratioQ : ℚ) :
    ∀ (rem r : ℕ),
      Worklet.wgo buffer ratioQ rem r (Worklet.jround ((r : ℚ) * ratioQ)) =
        (List.range rem).map (fun j => Worklet.windowAvg buffer ratioQ (r + j)) := by
  intro rem
  induction rem with
  | zero => intro r; simp [Worklet.wgo]
  | succ rem ih =>
    intro r
    have hcast : ((r + 1 : ℕ) : ℚ) = (r : ℚ) + 1 := by push_cast; ring
    have ih' := ih (r + 1)
    rw [hcast] at ih'
    simp only [Worklet.wgo, ih', List.range_succ_eq_map, List.map_cons, List.map_map]
    congr 1
    apply List.map_congr_left
    intro a _
    have hadd : r + 1 + a = r + (a + 1) := by omega
    simp only [Function.comp]
    rw [hadd]

/-- Every averaging window of the worklet downsampler is non-empty when
the input rate strictly exceeds the output rate. -/
theorem worklet_window_nonempty (len inRate outRate : ℕ)
    (hpos : 0 < outRate) (hlt : outRate < inRate) :
    ∀ r, r < Worklet.downsampleNewLength len inRate outRate →
      0 < Worklet.windowCount len ((inRate : ℚ) / (outRate : ℚ)) r := by
  intro r hr
  have houtQ : (0 : ℚ) < (outRate : ℚ) := by exact_mod_cast hpos
  have hρ : (1 : ℚ) < (inRate : ℚ) / (outRate : ℚ) := by
    rw [lt_div_iff houtQ, one_mul]
    exact_mod_cast hlt
  set ρ := (inRate : ℚ) / (outRate : ℚ) with hρdef
  have hρ0 : (0 : ℚ) < ρ := by linarith
  have hN : 0 < Worklet.jround ((len : ℚ) / ρ) := by
    by_contra hcon
    push_neg at hcon
    unfold Worklet.downsampleNewLength at hr
    rw [← hρdef, Int.toNat_of_nonpos hcon] at hr
    omega
  have hrZ : (r : ℤ) + 1 ≤ Worklet.jround ((len : ℚ) / ρ) := by
    unfold Worklet.downsampleNewLength at hr
    rw [← hρdef] at hr
    have h' : ((r : ℕ) : ℤ) < ((Worklet.jround ((len : ℚ) / ρ)).toNat : ℤ) := by
      exact_mod_cast hr
    rw [Int.toNat_of_nonneg (le_of_lt hN)] at h'
    omega
  have hrq : (r : ℚ) + 1 ≤ (len : ℚ) / ρ + 1 / 2 := by
    have h2 : ((r : ℤ) + 1 : ℤ) ≤ ⌊(len : ℚ) / ρ + 1 / 2⌋ := hrZ
    have h3 := Int.le_floor.mp h2
    push_cast at h3
    linarith
  have hrρ : (r : ℚ) * ρ ≤ (len : ℚ) - ρ / 2 := by
    have h1 : (r : ℚ) ≤ (len : ℚ) / ρ - 1 / 2 := by linarith
    have h2 : (r : ℚ) * ρ ≤ ((len : ℚ) / ρ - 1 / 2) * ρ :=
      mul_le_mul_of_nonneg_right h1 (le_of_lt hρ0)
    have h3 : (len : ℚ) / ρ * ρ = (len : ℚ) := div_mul_cancel₀ _ (ne_of_gt hρ0)
    nlinarith
  have hlo_lt : Worklet.jround ((r : ℚ) * ρ) < (len : ℤ) := by
    unfold Worklet.jround
    apply Int.floor_lt.mpr
    push_cast
    linarith
  have hhi : Worklet.jround ((r : ℚ) * ρ) + 1 ≤ Worklet.jround (((r : ℚ) + 1) * ρ) := by
    unfold Worklet.jround
    have hmono : (r : ℚ) * ρ + 1 / 2 + 1 ≤ ((r : ℚ) + 1) * ρ + 1 / 2 := by nlinarith
    calc ⌊(r : ℚ) * ρ + 1 / 2⌋ + 1 = ⌊(r : ℚ) * ρ + 1 / 2 + 1⌋ :=
          (Int.floor_add_one _).symm
      _ ≤ ⌊((r : ℚ) + 1) * ρ + 1 / 2⌋ := Int.floor_le_floor hmono
  unfold Worklet.windowCount
  have hmin : Worklet.jround ((r : ℚ) * ρ) <
      min (Worklet.jround (((r : ℚ) + 1) * ρ)) (len : ℤ) := lt_min (by omega) hlo_lt
  omega

/-- Claim C10: under the precondition `outputRate ≤ inputRate` (the only
direction the capture worklet uses), `downsampleBuffer` is the identity at
equal rates, and otherwise computes one average per output index where
every averaging window contains at least one input sample — so the
per-window division `accum / count` never evaluates `0 / 0` and every
output sample is a well-defined finite value. -/
theorem c10_downsample_window_nonempty (buffer : List ℚ) (inRate outRate : ℕ)
    (hpos : 0 < outRate) (hle : outRate ≤ inRate) :
    (inRate = outRate → Worklet.downsampleBuffer buffer inRate outRate = buffer) ∧
    (inRate ≠ outRate →
      Worklet.downsampleBuffer buffer inRate outRate =
        (List.range (Worklet.downsampleNewLength buffer.length inRate outRate)).map
          (Worklet.windowAvg buffer ((inRate : ℚ) / (outRate : ℚ))) ∧
      ∀ r, r < Worklet.downsampleNewLength buffer.length inRate outRate →
        0 < Worklet.windowCount buffer.length ((inRate : ℚ) / (outRate : ℚ)) r) := by
  refine ⟨?_, ?_⟩
  · intro heq
    unfold Worklet.downsampleBuffer
    rw [if_pos heq]
  · intro hne
    have hlt : outRate < inRate := by omega
    refine ⟨?_, worklet_window_nonempty buffer.length inRate outRate hpos hlt⟩
    unfold Worklet.downsampleBuffer
    rw [if_neg hne]
    have hcl := worklet_wgo_closed buffer ((inRate : ℚ) / (outRate : ℚ))
      (Worklet.downsampleNewLength buffer.length inRate outRate) 0
    have h0 : Worklet.jround (((0 : ℕ) : ℚ) * ((inRate : ℚ) / (outRate : ℚ))) = 0 := by
      unfold Worklet.jround
      norm_num
    rw [h0] at hcl
    simp only [Nat.zero_add] at hcl
    exact hcl

/-- Claim C10, witness: a three-sample buffer downsampled 48000→16000 has
one window holding all three samples. -/
theorem c10_downsample_window_witness :
    Worklet.downsampleBuffer [1, 2, 3] 48000 16000 =
      (List.range (Worklet.downsampleNewLength 3 48000 16000)).map
        (Worklet.windowAvg [1, 2, 3] ((48000 : ℚ) / (16000 : ℚ))) ∧
    0 < Worklet.windowCount 3 ((48000 : ℚ) / (16000 : ℚ)) 0 := by
  have h := c10_downsample_window_nonempty [1, 2, 3] 48000 16000
    (by norm_num) (by norm_num)
  have h2 := h.2 (by norm_num)
  refine ⟨h2.1, h2.2 0 ?_⟩
  norm_num [Worklet.downsampleNewLength, Worklet.jround]
